import Mathlib

/-!
# Shallow embedding of the ZVault Python SDK client (`src/sdks/python/zvault/client.py`)

This development models the core `ZVault` client: the retry transport
(`_request` / `_sleep_with_jitter`), the per-environment TTL cache
(`_get_cached`, `_get_cached_key`, `_set_cached_key`) and the public
operations (`get_all`, `get`, `list_keys`, `set`, `delete`,
`inject_into_env`, `healthy`).

Modelling conventions:
* Time is a single rational instant `now` per operation call, standing for
  `time.monotonic()` (and `time.time()` for the last-refresh stamp); the
  clock does not advance inside one call.
* The HTTP layer is an oracle `transport : Nat → Response` giving the
  response to the n-th HTTP request the client has issued overall; the
  client state records the requests issued so far.
* `random.random()` draws are an oracle `rand : Nat → ℚ` indexed by the
  retry-attempt number (the draws satisfy `0 ≤ rand i < 1`).
* URL strings and percent-encoding are abstracted into the `ApiPath`
  inductive; JSON bodies into the `Body` inductive.  Mandatory JSON fields
  (`k["key"]`, `resp["secret"]`, ...) whose absence would raise a Python
  `KeyError` are modelled by the `Body` constructors; a body of the wrong
  shape yields the `ZError.pyError` outcome standing for such a raw
  Python exception.
* A raised Python exception is modelled as an `Except.error`; wall-clock
  latency measurement (`healthy().latency_ms`) is not modelled and is
  reported as 0.
-/

namespace ZVaultSDK

/-- `_DEFAULT_CACHE_TTL = 300.0` (seconds). -/
def defaultCacheTtl : ℚ := 300

/-- `_DEFAULT_TIMEOUT = 10.0` (seconds, unused by the model: per-attempt
timeouts surface only as `Response.timeout`). -/
def defaultTimeout : ℚ := 10

/-- `_DEFAULT_MAX_RETRIES = 3`. -/
def defaultMaxRetries : Nat := 3

/-- `_RETRY_BASE_DELAY = 0.5` (seconds). -/
def retryBaseDelay : ℚ := 1/2

/-- JSON object for one secret, `{"secret": {key, value, version, comment,
created_at, updated_at}}`; `comment`/`created_at`/`updated_at` are read with
`.get(..., "")` in the code, hence optional here. -/
structure SecretJson where
  key : String
  value : String
  version : Nat
  comment : Option String
  created_at : Option String
  updated_at : Option String
deriving DecidableEq, Repr

/-- JSON object for one entry of the key listing `{"keys": [...]}`;
`key` and `version` are accessed with `[]` (mandatory), the rest with
`.get(..., "")`. -/
structure KeyJson where
  key : String
  version : Nat
  comment : Option String
  updated_at : Option String
deriving DecidableEq, Repr

/-- Parsed JSON body of a successful response. -/
inductive Body where
  /-- `{"keys": [...]}` as returned by the listing endpoint. -/
  | keysList (keys : List KeyJson)
  /-- `{"secret": {...}}` as returned by single-key GET / PUT. -/
  | secretBody (s : SecretJson)
  /-- The empty dict `{}` produced for a 204 response. -/
  | emptyBody
  /-- Any other JSON body (missing the expected fields). -/
  | otherBody
deriving DecidableEq, Repr

/-- Outcome of one HTTP attempt as seen through `httpx`. -/
inductive Response where
  /-- A response with a status code; `emsg` is the message the error-parse
  of `_request` would extract from the body (unused on success). -/
  | http (code : Nat) (body : Body) (emsg : String)
  /-- `httpx.TimeoutException`. -/
  | timeout (emsg : String)
  /-- Any other `httpx.HTTPError` (connection failure etc.). -/
  | netError (emsg : String)
deriving DecidableEq, Repr

/-- The error taxonomy of `zvault/errors.py`, plus `pyError` for raw Python
exceptions (e.g. `KeyError` on a malformed body) that escape the client. -/
inductive ZError where
  | configError (msg : String)
  | authError (msg : String)
  | apiError (status : Nat) (msg : String)
  | notFoundError (key env : String)
  | timeoutError (msg : String)
  | pyError (msg : String)
deriving DecidableEq, Repr

/-- `SecretEntry` dataclass. -/
structure SecretEntry where
  key : String
  value : String
  version : Nat
  comment : String
  created_at : String
  updated_at : String
deriving DecidableEq, Repr

/-- `SecretKey` dataclass. -/
structure SecretKey where
  key : String
  version : Nat
  comment : String
  updated_at : String
deriving DecidableEq, Repr

/-- `HealthStatus` dataclass. -/
structure HealthStatus where
  ok : Bool
  latency_ms : ℚ
  cached_secrets : Nat
  last_refresh : Option ℚ
deriving DecidableEq, Repr

/-- `_CacheEntry` dataclass. -/
structure CacheEntry where
  secrets : List (String × String)
  expires_at : ℚ
deriving DecidableEq, Repr

/-- Client configuration fixed at construction time. -/
structure Config where
  org_id : String
  project_id : String
  default_env : String
  cache_ttl : ℚ
  max_retries : Nat
deriving DecidableEq, Repr

/-- HTTP method of an issued request. -/
inductive Method where
  | get
  | put
  | delete
deriving DecidableEq, Repr

/-- Abstracted request path. -/
inductive ApiPath where
  /-- `/orgs/{org}/projects/{proj}/envs/{env}/secrets` -/
  | secretsList (org proj env : String)
  /-- `/orgs/{org}/projects/{proj}/envs/{env}/secrets/{key}` -/
  | secretKey (org proj env key : String)
  /-- `/me` -/
  | me
deriving DecidableEq, Repr

/-- Mutable client state: the cache mapping (`self._cache`, a Python dict
from environment name to `_CacheEntry`), `self._last_refresh`, and the log
of HTTP requests issued so far (one entry per attempt; its length is the
index the transport oracle is consulted at next). -/
structure ClientState where
  cache : List (String × CacheEntry)
  last_refresh : Option ℚ
  issued : List (Method × ApiPath)
deriving DecidableEq, Repr

/-- Python-dict lookup on an association list (insertion ordered, keys
unique by construction of `dictSet`). -/
def dictGet {α : Type} : List (String × α) → String → Option α
  | [], _ => none
  | (k', v) :: rest, k => if k' = k then some v else dictGet rest k

/-- Python-dict assignment `d[k] = v`: replace in place, else append. -/
def dictSet {α : Type} : List (String × α) → String → α → List (String × α)
  | [], k, v => [(k, v)]
  | (k', v') :: rest, k, v =>
    if k' = k then (k, v) :: rest else (k', v') :: dictSet rest k v

/-- `httpx.Response.is_success`: 2xx. -/
def isSuccess (code : Nat) : Bool :=
  200 ≤ code && code ≤ 299

/-- The retryable status set `(429, 500, 502, 503, 504)` of `_request`. -/
def retryableStatus (code : Nat) : Bool :=
  code == 429 || code == 500 || code == 502 || code == 503 || code == 504

/-- `_sleep_with_jitter`: delay slept before the retry following attempt
number `attempt`, namely `base · 2^attempt` plus `random() · that · 0.3`. -/
def backoffDelay (rand : Nat → ℚ) (attempt : Nat) : ℚ :=
  retryBaseDelay * 2 ^ attempt + rand attempt * (retryBaseDelay * 2 ^ attempt) * (3/10)

/-- Result of one `_request` call: the returned body or raised error, the
number of HTTP attempts made, and the list of back-off delays slept. -/
structure ReqOutcome where
  result : Except ZError Body
  attempts : Nat
  sleeps : List ℚ
deriving Repr

deriving instance DecidableEq for Except

deriving instance DecidableEq for ReqOutcome

/-- The retry loop of `_request`.  `attempt` is the Python loop variable,
`fuel` the remaining loop iterations (`max_retries + 1 - attempt`); the
`fuel = 0` fallthrough mirrors the unreachable `raise ZVaultAPIError(0,
"Unknown error")` after the loop.

Faithful subtlety: the `raise` of a 404 `ZVaultAPIError` (and the
`raise last_err` for a non-retryable status) happen inside the `try`
block, so they are caught by the blanket `except ZVaultAPIError` handler,
which `continue`s (without sleeping) while `attempt < max_retries` — only
401/403 (`ZVaultAuthError`) escape immediately. -/
def requestLoop (maxRetries : Nat) (transport : Nat → Response) (rand : Nat → ℚ)
    (reqBase : Nat) : Nat → Nat → ReqOutcome
  | _, 0 => ⟨.error (.apiError 0 "Unknown error"), 0, []⟩
  | attempt, fuel + 1 =>
    match transport (reqBase + attempt) with
    | .http code body emsg =>
      if isSuccess code then
        if code = 204 then ⟨.ok .emptyBody, attempt + 1, []⟩
        else ⟨.ok body, attempt + 1, []⟩
      else if code = 401 ∨ code = 403 then
        ⟨.error (.authError emsg), attempt + 1, []⟩
      else if code = 404 then
        if maxRetries ≤ attempt then ⟨.error (.apiError 404 emsg), attempt + 1, []⟩
        else requestLoop maxRetries transport rand reqBase (attempt + 1) fuel
      else if attempt < maxRetries ∧ retryableStatus code then
        let rest := requestLoop maxRetries transport rand reqBase (attempt + 1) fuel
        ⟨rest.result, rest.attempts, backoffDelay rand attempt :: rest.sleeps⟩
      else if maxRetries ≤ attempt then
        ⟨.error (.apiError code emsg), attempt + 1, []⟩
      else
        requestLoop maxRetries transport rand reqBase (attempt + 1) fuel
    | .timeout emsg =>
      if attempt < maxRetries then
        let rest := requestLoop maxRetries transport rand reqBase (attempt + 1) fuel
        ⟨rest.result, rest.attempts, backoffDelay rand attempt :: rest.sleeps⟩
      else ⟨.error (.timeoutError emsg), attempt + 1, []⟩
    | .netError emsg =>
      if attempt < maxRetries then
        let rest := requestLoop maxRetries transport rand reqBase (attempt + 1) fuel
        ⟨rest.result, rest.attempts, backoffDelay rand attempt :: rest.sleeps⟩
      else ⟨.error (.apiError 0 emsg), attempt + 1, []⟩

/-- `_request`: run the retry loop from attempt 0. -/
def zrequest (cfg : Config) (transport : Nat → Response) (rand : Nat → ℚ)
    (reqBase : Nat) : ReqOutcome :=
  requestLoop cfg.max_retries transport rand reqBase 0 (cfg.max_retries + 1)

/-- Append the attempts of one `_request` call to the issued-request log. -/
def logIssued (st : ClientState) (m : Method) (p : ApiPath) (n : Nat) : ClientState :=
  { st with issued := st.issued ++ List.replicate n (m, p) }

/-- `_resolve_env`: `env or self._default_env` (`None` and `""` are both
falsy). -/
def resolve_env (cfg : Config) (env : Option String) : String :=
  match env with
  | some e => if e = "" then cfg.default_env else e
  | none => cfg.default_env

/-- `_require_project_config`. -/
def require_project_config (cfg : Config) : Except ZError Unit :=
  if cfg.org_id = "" then
    .error (.configError "Missing org_id. Set ZVAULT_ORG_ID env var or pass org_id= argument.")
  else if cfg.project_id = "" then
    .error (.configError "Missing project_id. Set ZVAULT_PROJECT_ID env var or pass project_id= argument.")
  else .ok ()

/-- `_get_cached`: the whole mapping for `env`, only while unexpired. -/
def get_cached (now : ℚ) (st : ClientState) (env : String) :
    Option (List (String × String)) :=
  match dictGet st.cache env with
  | some entry => if now < entry.expires_at then some entry.secrets else none
  | none => none

/-- `_get_cached_key`: one key for `env`, only while the entry is unexpired. -/
def get_cached_key (now : ℚ) (st : ClientState) (env key : String) : Option String :=
  match dictGet st.cache env with
  | some entry => if now < entry.expires_at then dictGet entry.secrets key else none
  | none => none

/-- `_set_cached_key`: merge into a live entry (keeping its deadline), else
replace with a fresh single-key entry whose deadline is `now + ttl`. -/
def set_cached_key (cfg : Config) (now : ℚ) (st : ClientState)
    (env key value : String) : ClientState :=
  match dictGet st.cache env with
  | some entry =>
    if now < entry.expires_at then
      { st with cache := dictSet st.cache env ⟨dictSet entry.secrets key value, entry.expires_at⟩ }
    else
      { st with cache := dictSet st.cache env ⟨[(key, value)], now + cfg.cache_ttl⟩ }
  | none =>
    { st with cache := dictSet st.cache env ⟨[(key, value)], now + cfg.cache_ttl⟩ }

/-- `keys_resp.get("keys", [])`. -/
def bodyKeys : Body → List KeyJson
  | .keysList ks => ks
  | _ => []

/-- The per-key fetch loop of `get_all`: for each listed key, GET its value;
a `ZVaultAPIError` skips the key (`except ZVaultAPIError: continue`), any
other raised error (auth, timeout, or a `KeyError` on a malformed body)
aborts the loop and propagates to `get_all`'s outer handler. -/
def fetchKeysLoop (cfg : Config) (transport : Nat → Response) (rand : Nat → ℚ)
    (env : String) : ClientState → List (String × String) → List KeyJson →
    Except ZError (List (String × String)) × ClientState
  | st, acc, [] => (.ok acc, st)
  | st, acc, k :: rest =>
    let r := zrequest cfg transport rand st.issued.length
    let st1 := logIssued st .get (.secretKey cfg.org_id cfg.project_id env k.key) r.attempts
    match r.result with
    | .ok body =>
      match body with
      | .secretBody s => fetchKeysLoop cfg transport rand env st1 (dictSet acc s.key s.value) rest
      | _ => (.error (.pyError "KeyError"), st1)
    | .error e =>
      match e with
      | .apiError status msg =>
        let _ := status
        let _ := msg
        fetchKeysLoop cfg transport rand env st1 acc rest
      | _ => (.error e, st1)

/-- `get_all`: list the keys, fetch each value, replace the cache entry
wholesale on success; on any raised error, serve the (unexpired) cached
mapping if present, else re-raise. -/
def get_all (cfg : Config) (transport : Nat → Response) (rand : Nat → ℚ)
    (now : ℚ) (st : ClientState) (env? : Option String) :
    Except ZError (List (String × String)) × ClientState :=
  let env := resolve_env cfg env?
  match require_project_config cfg with
  | .error e => (.error e, st)
  | .ok _ =>
    let r := zrequest cfg transport rand st.issued.length
    let st1 := logIssued st .get (.secretsList cfg.org_id cfg.project_id env) r.attempts
    match r.result with
    | .ok body =>
      match fetchKeysLoop cfg transport rand env st1 [] (bodyKeys body) with
      | (.ok secrets, st2) =>
        (.ok secrets,
          { st2 with
            cache := dictSet st2.cache env ⟨secrets, now + cfg.cache_ttl⟩
            last_refresh := some now })
      | (.error e, st2) =>
        match get_cached now st2 env with
        | some cached => (.ok cached, st2)
        | none => (.error e, st2)
    | .error e =>
      match get_cached now st1 env with
      | some cached => (.ok cached, st1)
      | none => (.error e, st1)

/-- `get`: serve from cache when the entry is live and has the key;
otherwise GET the single key, cache the fetched value, and return it,
upgrading a 404 `ZVaultAPIError` to `ZVaultNotFoundError(key, env)`. -/
def get (cfg : Config) (transport : Nat → Response) (rand : Nat → ℚ)
    (now : ℚ) (st : ClientState) (key : String) (env? : Option String) :
    Except ZError String × ClientState :=
  let env := resolve_env cfg env?
  match require_project_config cfg with
  | .error e => (.error e, st)
  | .ok _ =>
    match get_cached_key now st env key with
    | some v => (.ok v, st)
    | none =>
      let r := zrequest cfg transport rand st.issued.length
      let st1 := logIssued st .get (.secretKey cfg.org_id cfg.project_id env key) r.attempts
      match r.result with
      | .ok body =>
        match body with
        | .secretBody s => (.ok s.value, set_cached_key cfg now st1 env key s.value)
        | _ => (.error (.pyError "KeyError"), st1)
      | .error e =>
        match e with
        | .apiError status msg =>
          if status = 404 then (.error (.notFoundError key env), st1)
          else (.error (.apiError status msg), st1)
        | _ => (.error e, st1)

/-- `list_keys`: one GET of the listing endpoint, no caching. -/
def list_keys (cfg : Config) (transport : Nat → Response) (rand : Nat → ℚ)
    (now : ℚ) (st : ClientState) (env? : Option String) :
    Except ZError (List SecretKey) × ClientState :=
  let _ := now
  let env := resolve_env cfg env?
  match require_project_config cfg with
  | .error e => (.error e, st)
  | .ok _ =>
    let r := zrequest cfg transport rand st.issued.length
    let st1 := logIssued st .get (.secretsList cfg.org_id cfg.project_id env) r.attempts
    match r.result with
    | .ok body =>
      (.ok ((bodyKeys body).map fun k =>
        ⟨k.key, k.version, k.comment.getD "", k.updated_at.getD ""⟩), st1)
    | .error e => (.error e, st1)

/-- `set`: always PUT (no cache read), then cache the written value under
the requested key and return the server's `SecretEntry`. -/
def set (cfg : Config) (transport : Nat → Response) (rand : Nat → ℚ)
    (now : ℚ) (st : ClientState) (key value : String) (env? : Option String)
    (comment : String) : Except ZError SecretEntry × ClientState :=
  let _ := comment
  let env := resolve_env cfg env?
  match require_project_config cfg with
  | .error e => (.error e, st)
  | .ok _ =>
    let r := zrequest cfg transport rand st.issued.length
    let st1 := logIssued st .put (.secretKey cfg.org_id cfg.project_id env key) r.attempts
    match r.result with
    | .ok body =>
      match body with
      | .secretBody s =>
        (.ok ⟨s.key, s.value, s.version, s.comment.getD "", s.created_at.getD "",
           s.updated_at.getD ""⟩,
         set_cached_key cfg now st1 env key value)
      | _ => (.error (.pyError "KeyError"), st1)
    | .error e => (.error e, st1)

/-- `delete`: one DELETE; the cache is not touched. -/
def delete (cfg : Config) (transport : Nat → Response) (rand : Nat → ℚ)
    (now : ℚ) (st : ClientState) (key : String) (env? : Option String) :
    Except ZError Unit × ClientState :=
  let _ := now
  let env := resolve_env cfg env?
  match require_project_config cfg with
  | .error e => (.error e, st)
  | .ok _ =>
    let r := zrequest cfg transport rand st.issued.length
    let st1 := logIssued st .delete (.secretKey cfg.org_id cfg.project_id env key) r.attempts
    match r.result with
    | .ok _ => (.ok (), st1)
    | .error e => (.error e, st1)

/-- The injection loop of `inject_into_env` over `os.environ` (modelled as
an association list). -/
def injectLoop (overwrite : Bool) : List (String × String) → Nat →
    List (String × String) → List (String × String) × Nat
  | osEnv, count, [] => (osEnv, count)
  | osEnv, count, (k, v) :: rest =>
    if ¬overwrite ∧ (dictGet osEnv k).isSome then
      injectLoop overwrite osEnv count rest
    else
      injectLoop overwrite (dictSet osEnv k v) (count + 1) rest

/-- `inject_into_env`: `get_all`, then copy into the process environment,
skipping existing variables unless `overwrite`. -/
def inject_into_env (cfg : Config) (transport : Nat → Response) (rand : Nat → ℚ)
    (now : ℚ) (st : ClientState) (osEnv : List (String × String))
    (env? : Option String) (overwrite : Bool) :
    Except ZError Nat × ClientState × List (String × String) :=
  match get_all cfg transport rand now st env? with
  | (.ok secrets, st1) =>
    let r := injectLoop overwrite osEnv 0 secrets
    (.ok r.2, st1, r.1)
  | (.error e, st1) => (.error e, st1, osEnv)

/-- The cached-secrets count reported by `healthy`: sizes of the unexpired
entries. -/
def cachedSecretsCount (now : ℚ) (cache : List (String × CacheEntry)) : Nat :=
  ((cache.filter fun p => decide (now < p.2.expires_at)).map
    fun p => p.2.secrets.length).sum

/-- `healthy`: probe `/me`, catching every raised error (`except
Exception`); report the live cache size and last refresh regardless. -/
def healthy (cfg : Config) (transport : Nat → Response) (rand : Nat → ℚ)
    (now : ℚ) (st : ClientState) : HealthStatus × ClientState :=
  let r := zrequest cfg transport rand st.issued.length
  let st1 := logIssued st .get .me r.attempts
  let ok := match r.result with
    | .ok _ => true
    | .error _ => false
  (⟨ok, 0, cachedSecretsCount now st.cache, st.last_refresh⟩, st1)

/-! ## Helper lemmas -/

lemma require_project_config_ok (cfg : Config) (h1 : cfg.org_id ≠ "")
    (h2 : cfg.project_id ≠ "") : require_project_config cfg = .ok () := by
  simp [require_project_config, h1, h2]

lemma dictGet_dictSet_self {α : Type} (d : List (String × α)) (k : String) (v : α) :
    dictGet (dictSet d k v) k = some v := by
  induction d with
  | nil => simp [dictSet, dictGet]
  | cons p rest ih =>
    obtain ⟨k', v'⟩ := p
    by_cases h : k' = k
    · simp [dictSet, h, dictGet]
    · simp [dictSet, h, dictGet, ih]

lemma dictGet_dictSet_ne {α : Type} (d : List (String × α)) (kw k : String) (v : α)
    (h : kw ≠ k) : dictGet (dictSet d kw v) k = dictGet d k := by
  induction d with
  | nil => simp [dictSet, dictGet, h]
  | cons p rest ih =>
    obtain ⟨k', v'⟩ := p
    by_cases hk : k' = kw
    · subst hk; simp [dictSet, dictGet, h]
    · simp [dictSet, hk, dictGet, ih]

lemma length_dictSet_none {α : Type} (d : List (String × α)) (k : String) (v : α)
    (h : dictGet d k = none) : (dictSet d k v).length = d.length + 1 := by
  induction d with
  | nil => simp [dictSet]
  | cons p rest ih =>
    obtain ⟨k', v'⟩ := p
    by_cases hk : k' = k
    · simp [dictGet, hk] at h
    · simp [dictGet, hk] at h
      simp [dictSet, hk, ih h]

lemma length_dictSet_isSome {α : Type} (d : List (String × α)) (k : String) (v : α)
    (h : (dictGet d k).isSome) : (dictSet d k v).length = d.length := by
  induction d with
  | nil => simp [dictGet] at h
  | cons p rest ih =>
    obtain ⟨k', v'⟩ := p
    by_cases hk : k' = k
    · simp [dictSet, hk]
    · simp [dictGet, hk] at h
      simp [dictSet, hk, ih h]

lemma logIssued_cache (st : ClientState) (m : Method) (p : ApiPath) (n : Nat) :
    (logIssued st m p n).cache = st.cache := rfl

lemma logIssued_last_refresh (st : ClientState) (m : Method) (p : ApiPath) (n : Nat) :
    (logIssued st m p n).last_refresh = st.last_refresh := rfl

lemma logIssued_issued (st : ClientState) (m : Method) (p : ApiPath) (n : Nat) :
    (logIssued st m p n).issued = st.issued ++ List.replicate n (m, p) := rfl

lemma set_cached_key_issued (cfg : Config) (now : ℚ) (st : ClientState)
    (env key value : String) :
    (set_cached_key cfg now st env key value).issued = st.issued := by
  unfold set_cached_key
  rcases dictGet st.cache env with _ | entry
  · rfl
  · by_cases h : now < entry.expires_at <;> simp [h]

lemma set_cached_key_last_refresh (cfg : Config) (now : ℚ) (st : ClientState)
    (env key value : String) :
    (set_cached_key cfg now st env key value).last_refresh = st.last_refresh := by
  unfold set_cached_key
  rcases dictGet st.cache env with _ | entry
  · rfl
  · by_cases h : now < entry.expires_at <;> simp [h]

lemma requestLoop_attempts_pos (mr : Nat) (T : Nat → Response) (R : Nat → ℚ)
    (base : Nat) :
    ∀ fuel a, 0 < fuel → a + fuel = mr + 1 →
      1 ≤ (requestLoop mr T R base a fuel).attempts := by
  intro fuel
  induction fuel with
  | zero => intro a h; omega
  | succ f ih =>
    intro a _ hsum
    unfold requestLoop
    rcases T (base + a) with ⟨code, body, emsg⟩ | emsg | emsg <;> dsimp only <;>
      split_ifs <;> (try dsimp only) <;>
        first
          | omega
          | (apply ih <;> omega)

lemma zrequest_attempts_pos (cfg : Config) (T : Nat → Response) (R : Nat → ℚ)
    (base : Nat) : 1 ≤ (zrequest cfg T R base).attempts := by
  unfold zrequest
  exact requestLoop_attempts_pos cfg.max_retries T R base (cfg.max_retries + 1) 0
    (by omega) (by omega)

lemma backoff_range_succ (R : Nat → ℚ) (a f : Nat) :
    (List.range (f + 1)).map (fun i => backoffDelay R (a + i)) =
      backoffDelay R a :: (List.range f).map fun i => backoffDelay R (a + 1 + i) := by
  rw [List.range_succ_eq_map, List.map_cons, List.map_map]
  refine congrArg₂ _ (by simp) (List.map_congr_left ?_)
  intro i _
  simp only [Function.comp_apply]
  congr 1
  omega

lemma requestLoop_const_netError (mr : Nat) (R : Nat → ℚ) (base : Nat) (m : String) :
    ∀ d a, a + d = mr →
      requestLoop mr (fun _ => .netError m) R base a (d + 1) =
        ⟨.error (.apiError 0 m), mr + 1,
         (List.range d).map fun i => backoffDelay R (a + i)⟩ := by
  intro d
  induction d with
  | zero =>
    intro a ha
    unfold requestLoop
    have hge : ¬a < mr := by omega
    simp only [dif_neg, if_neg hge, List.range_zero, List.map_nil]
    have : a + 1 = mr + 1 := by omega
    rw [this]
  | succ f ih =>
    intro a ha
    have hlt : a < mr := by omega
    unfold requestLoop
    dsimp only
    rw [if_pos hlt, ih (a + 1) (by omega), backoff_range_succ]

lemma requestLoop_const_timeout (mr : Nat) (R : Nat → ℚ) (base : Nat) (m : String) :
    ∀ d a, a + d = mr →
      requestLoop mr (fun _ => .timeout m) R base a (d + 1) =
        ⟨.error (.timeoutError m), mr + 1,
         (List.range d).map fun i => backoffDelay R (a + i)⟩ := by
  intro d
  induction d with
  | zero =>
    intro a ha
    unfold requestLoop
    have hge : ¬a < mr := by omega
    simp only [dif_neg, if_neg hge, List.range_zero, List.map_nil]
    have : a + 1 = mr + 1 := by omega
    rw [this]
  | succ f ih =>
    intro a ha
    have hlt : a < mr := by omega
    unfold requestLoop
    dsimp only
    rw [if_pos hlt, ih (a + 1) (by omega), backoff_range_succ]

lemma requestLoop_const_503 (mr : Nat) (R : Nat → ℚ) (base : Nat) (b : Body)
    (m : String) :
    ∀ d a, a + d = mr →
      requestLoop mr (fun _ => .http 503 b m) R base a (d + 1) =
        ⟨.error (.apiError 503 m), mr + 1,
         (List.range d).map fun i => backoffDelay R (a + i)⟩ := by
  have hs : isSuccess 503 = false := rfl
  have hauth : ¬((503 : Nat) = 401 ∨ (503 : Nat) = 403) := by norm_num
  have h404 : (503 : Nat) ≠ 404 := by norm_num
  have hr : retryableStatus 503 = true := rfl
  intro d
  induction d with
  | zero =>
    intro a ha
    unfold requestLoop
    dsimp only
    rw [hs]
    have hge : ¬(a < mr ∧ retryableStatus 503 = true) := by
      intro hc
      omega
    have hge' : mr ≤ a := by omega
    simp only [Bool.false_eq_true, if_false, if_neg hauth, if_neg h404, if_neg hge,
      if_pos hge', List.range_zero, List.map_nil]
    have : a + 1 = mr + 1 := by omega
    rw [this]
  | succ f ih =>
    intro a ha
    have hlt : a < mr ∧ retryableStatus 503 = true := ⟨by omega, hr⟩
    unfold requestLoop
    dsimp only
    rw [hs]
    simp only [Bool.false_eq_true, if_false, if_neg hauth, if_neg h404, if_pos hlt]
    rw [ih (a + 1) (by omega), backoff_range_succ]

lemma requestLoop_error_of_const_http (mr : Nat) (R : Nat → ℚ) (base : Nat)
    (code : Nat) (b : Body) (m : String) (h : isSuccess code = false) :
    ∀ fuel a, ∃ e, (requestLoop mr (fun _ => .http code b m) R base a fuel).result =
      .error e := by
  intro fuel
  induction fuel with
  | zero => exact fun a => ⟨.apiError 0 "Unknown error", rfl⟩
  | succ f ih =>
    intro a
    unfold requestLoop
    dsimp only
    rw [h]
    simp only [Bool.false_eq_true, if_false]
    split_ifs <;> first | exact ih (a + 1) | exact ⟨_, rfl⟩

lemma requestLoop_error_of_const_timeout (mr : Nat) (R : Nat → ℚ) (base : Nat)
    (m : String) :
    ∀ fuel a, ∃ e, (requestLoop mr (fun _ => .timeout m) R base a fuel).result =
      .error e := by
  intro fuel
  induction fuel with
  | zero => exact fun a => ⟨.apiError 0 "Unknown error", rfl⟩
  | succ f ih =>
    intro a
    unfold requestLoop
    dsimp only
    split_ifs <;> first | exact ih (a + 1) | exact ⟨_, rfl⟩

lemma requestLoop_error_of_const_netError (mr : Nat) (R : Nat → ℚ) (base : Nat)
    (m : String) :
    ∀ fuel a, ∃ e, (requestLoop mr (fun _ => .netError m) R base a fuel).result =
      .error e := by
  intro fuel
  induction fuel with
  | zero => exact fun a => ⟨.apiError 0 "Unknown error", rfl⟩
  | succ f ih =>
    intro a
    unfold requestLoop
    dsimp only
    split_ifs <;> first | exact ih (a + 1) | exact ⟨_, rfl⟩

lemma requestLoop_ok_of_const_http (mr : Nat) (R : Nat → ℚ) (base : Nat)
    (code : Nat) (b : Body) (m : String) (h : isSuccess code = true) (fuel a : Nat) :
    (requestLoop mr (fun _ => .http code b m) R base a (fuel + 1)).result =
      .ok (if code = 204 then .emptyBody else b) := by
  unfold requestLoop
  dsimp only
  rw [h]
  simp only [if_pos rfl]
  by_cases h204 : code = 204 <;> simp [h204]

lemma get_hit (cfg : Config) (T : Nat → Response) (R : Nat → ℚ) (now : ℚ)
    (st : ClientState) (key : String) (env? : Option String) (v : String)
    (horg : cfg.org_id ≠ "") (hproj : cfg.project_id ≠ "")
    (hhit : get_cached_key now st (resolve_env cfg env?) key = some v) :
    get cfg T R now st key env? = (.ok v, st) := by
  unfold get
  simp only [require_project_config_ok cfg horg hproj, hhit]

lemma get_miss_issued (cfg : Config) (T : Nat → Response) (R : Nat → ℚ) (now : ℚ)
    (st : ClientState) (key : String) (env? : Option String)
    (horg : cfg.org_id ≠ "") (hproj : cfg.project_id ≠ "")
    (hmiss : get_cached_key now st (resolve_env cfg env?) key = none) :
    (get cfg T R now st key env?).2.issued =
      st.issued ++ List.replicate (zrequest cfg T R st.issued.length).attempts
        (Method.get, ApiPath.secretKey cfg.org_id cfg.project_id
          (resolve_env cfg env?) key) := by
  unfold get
  simp only [require_project_config_ok cfg horg hproj, hmiss]
  rcases hr : (zrequest cfg T R st.issued.length).result with e | b <;> simp only [hr]
  · rcases e <;> dsimp only <;> (try split) <;> rfl
  · rcases b <;> dsimp only [logIssued] <;> (try rw [set_cached_key_issued]) <;> rfl

lemma get_miss_ok (cfg : Config) (T : Nat → Response) (R : Nat → ℚ) (now : ℚ)
    (st : ClientState) (key : String) (env? : Option String) (s : SecretJson)
    (horg : cfg.org_id ≠ "") (hproj : cfg.project_id ≠ "")
    (hmiss : get_cached_key now st (resolve_env cfg env?) key = none)
    (hresp : (zrequest cfg T R st.issued.length).result = .ok (.secretBody s)) :
    get cfg T R now st key env? =
      (.ok s.value,
       set_cached_key cfg now
         (logIssued st .get (.secretKey cfg.org_id cfg.project_id
            (resolve_env cfg env?) key) (zrequest cfg T R st.issued.length).attempts)
         (resolve_env cfg env?) key s.value) := by
  unfold get
  simp only [require_project_config_ok cfg horg hproj, hmiss, hresp]

/-! ## Claim theorems -/

/-- Claim C9 (confirmed): `delete` leaves the cache mapping entirely
unchanged, for every key, environment, clock and transport behaviour: the
key is not evicted from its environment's entry, and no other entry or
expiry deadline (nor the last-refresh stamp) is modified. -/
theorem c9_delete_leaves_cache_unchanged (cfg : Config) (T : Nat → Response)
    (R : Nat → ℚ) (now : ℚ) (st : ClientState) (key : String)
    (env? : Option String) :
    (delete cfg T R now st key env?).2.cache = st.cache ∧
    (delete cfg T R now st key env?).2.last_refresh = st.last_refresh := by
  refine ⟨?_, ?_⟩ <;> unfold delete <;>
    rcases h : require_project_config cfg with e | u <;> simp only [h] <;>
      (try rfl) <;>
      rcases hr : (zrequest cfg T R st.issued.length).result with e' | b <;>
        simp only [hr] <;> rfl

/-- Claim C10 (confirmed): for every operation taking an `env` parameter
(`get_all`, `get`, `list_keys`, `set`, `delete`, `inject_into_env`),
passing the empty string behaves identically to passing no environment:
`_resolve_env` treats `""` as falsy and falls back to the client's default
environment. -/
theorem c10_empty_env_is_default (cfg : Config) (T : Nat → Response) (R : Nat → ℚ)
    (now : ℚ) (st : ClientState) (key value comment : String)
    (osEnv : List (String × String)) (ow : Bool) :
    get_all cfg T R now st (some "") = get_all cfg T R now st none ∧
    get cfg T R now st key (some "") = get cfg T R now st key none ∧
    list_keys cfg T R now st (some "") = list_keys cfg T R now st none ∧
    set cfg T R now st key value (some "") comment =
      set cfg T R now st key value none comment ∧
    delete cfg T R now st key (some "") = delete cfg T R now st key none ∧
    inject_into_env cfg T R now st osEnv (some "") ow =
      inject_into_env cfg T R now st osEnv none ow := by
  have h : resolve_env cfg (some "") = resolve_env cfg none := by
    simp [resolve_env]
  have hga : get_all cfg T R now st (some "") = get_all cfg T R now st none := by
    unfold get_all
    rw [h]
  refine ⟨hga, ?_, ?_, ?_, ?_, ?_⟩
  · unfold get; rw [h]
  · unfold list_keys; rw [h]
  · unfold set; rw [h]
  · unfold delete; rw [h]
  · unfold inject_into_env; rw [hga]

/-- Claim C2 (code bug, evaluation at the failing input): with every
response HTTP 404 and the default `max_retries = 3`, `get` does raise
`NotFoundError(key, env)` as claimed, but the client issues 4 HTTP
requests rather than exactly one: the 404 `ZVaultAPIError` raised inside
the `try` block is caught by the blanket `except ZVaultAPIError` handler
and retried (without sleeping) until attempts are exhausted. -/
theorem c2_404_is_retried_eval :
    (get ⟨"o", "p", "development", 300, 3⟩
        (fun _ => .http 404 .otherBody "not found") (fun _ => 0) 0
        ⟨[], none, []⟩ "DB_URL" none).1 =
      .error (.notFoundError "DB_URL" "development") ∧
    (get ⟨"o", "p", "development", 300, 3⟩
        (fun _ => .http 404 .otherBody "not found") (fun _ => 0) 0
        ⟨[], none, []⟩ "DB_URL" none).2.issued.length = 4 := by
  decide

/-- Claim C1 (counterexample): with the network down and a cache entry for
"production" that exists but whose TTL deadline has passed (expires at 10,
current time 20), `get_all` re-raises the transport error instead of
returning the cached mapping — refuting "whether or not its TTL deadline
has passed". -/
theorem c1_expired_cache_not_served :
    (dictGet [("production", (⟨[("K", "V")], 10⟩ : CacheEntry))]
        "production").isSome = true ∧
    ¬((20 : ℚ) < 10) ∧
    (get_all ⟨"o", "p", "development", 300, 0⟩
        (fun _ => .netError "connection refused") (fun _ => 0) 20
        ⟨[("production", ⟨[("K", "V")], 10⟩)], none, []⟩ (some "production")).1 =
      .error (.apiError 0 "connection refused") := by
  decide

/-- Claim C4 (counterexample): a fresh, unexpired cache entry for the
environment does not stop `get_all` from going to the network: at time 0
with an entry expiring at 100 it still issues an HTTP request and returns
the freshly fetched (different) mapping — refuting the part of the claim
that says a `get_all` before the deadline is served from cache without a
network request. -/
theorem c4_get_all_always_fetches :
    (0 : ℚ) < 100 ∧
    (get_all ⟨"o", "p", "development", 300, 3⟩
        (fun _ => .http 200 (.keysList []) "") (fun _ => 0) 0
        ⟨[("development", ⟨[("K", "V")], 100⟩)], none, []⟩ none).2.issued.length = 1 ∧
    (get_all ⟨"o", "p", "development", 300, 3⟩
        (fun _ => .http 200 (.keysList []) "") (fun _ => 0) 0
        ⟨[("development", ⟨[("K", "V")], 100⟩)], none, []⟩ none).1 = .ok [] := by
  decide

/-- Claim C5 (counterexample): a cache-missing `get` that merges its
fetched value into an existing unexpired entry does not refresh that
entry's deadline: at time 50 with TTL 300 the entry keeps its old deadline
100 instead of the claimed fresh 50 + 300. -/
theorem c5_merge_keeps_old_deadline :
    (get ⟨"o", "p", "development", 300, 3⟩
        (fun _ => .http 200 (.secretBody ⟨"B", "2", 1, none, none, none⟩) "")
        (fun _ => 0) 50 ⟨[("development", ⟨[("A", "1")], 100⟩)], none, []⟩
        "B" none).2.cache =
      [("development", ⟨[("A", "1"), ("B", "2")], 100⟩)] ∧
    (100 : ℚ) ≠ 50 + 300 :=
  ⟨by decide, by norm_num⟩

/-- Claim C8 (counterexample): the probe treats any 2xx as success
(`resp.is_success`), so a probe answered with HTTP 204 — a non-200
response, for which the claim demands `ok = false` — yields `ok = true`. -/
theorem c8_204_probe_is_ok :
    (healthy ⟨"o", "p", "d", 300, 3⟩ (fun _ => .http 204 .emptyBody "")
        (fun _ => 0) 0 ⟨[], none, []⟩).1.ok = true ∧
    (204 : Nat) ≠ 200 := by
  decide

lemma get_cached_logIssued (now : ℚ) (st : ClientState) (m : Method) (p : ApiPath)
    (n : Nat) (env : String) :
    get_cached now (logIssued st m p n) env = get_cached now st env := rfl

lemma zrequest_const_netError (cfg : Config) (R : Nat → ℚ) (base : Nat) (m : String) :
    zrequest cfg (fun _ => .netError m) R base =
      ⟨.error (.apiError 0 m), cfg.max_retries + 1,
       (List.range cfg.max_retries).map fun i => backoffDelay R i⟩ := by
  unfold zrequest
  rw [requestLoop_const_netError cfg.max_retries R base m cfg.max_retries 0 (by omega)]
  simp only [Nat.zero_add]

lemma zrequest_const_timeout (cfg : Config) (R : Nat → ℚ) (base : Nat)
    (m : String) :
    zrequest cfg (fun _ => .timeout m) R base =
      ⟨.error (.timeoutError m), cfg.max_retries + 1,
       (List.range cfg.max_retries).map fun i => backoffDelay R i⟩ := by
  unfold zrequest
  rw [requestLoop_const_timeout cfg.max_retries R base m cfg.max_retries 0 (by omega)]
  simp only [Nat.zero_add]

lemma zrequest_const_503 (cfg : Config) (R : Nat → ℚ) (base : Nat) (b : Body)
    (m : String) :
    zrequest cfg (fun _ => .http 503 b m) R base =
      ⟨.error (.apiError 503 m), cfg.max_retries + 1,
       (List.range cfg.max_retries).map fun i => backoffDelay R i⟩ := by
  unfold zrequest
  rw [requestLoop_const_503 cfg.max_retries R base b m cfg.max_retries 0 (by omega)]
  simp only [Nat.zero_add]

lemma fetchKeysLoop_cons_eq (cfg : Config) (T : Nat → Response) (R : Nat → ℚ)
    (env : String) (st : ClientState) (acc : List (String × String))
    (k : KeyJson) (rest : List KeyJson) :
    fetchKeysLoop cfg T R env st acc (k :: rest) =
      (let r := zrequest cfg T R st.issued.length
       let st1 := logIssued st .get
         (.secretKey cfg.org_id cfg.project_id env k.key) r.attempts
       match r.result with
       | .ok body =>
         match body with
         | .secretBody s =>
           fetchKeysLoop cfg T R env st1 (dictSet acc s.key s.value) rest
         | _ => (.error (.pyError "KeyError"), st1)
       | .error e =>
         match e with
         | .apiError status msg =>
           let _ := status
           let _ := msg
           fetchKeysLoop cfg T R env st1 acc rest
         | _ => (.error e, st1)) := rfl

lemma fetchKeysLoop_cache (cfg : Config) (T : Nat → Response) (R : Nat → ℚ)
    (env : String) :
    ∀ (keys : List KeyJson) (st : ClientState) (acc : List (String × String)),
      (fetchKeysLoop cfg T R env st acc keys).2.cache = st.cache := by
  intro keys
  induction keys with
  | nil => intro st acc; rfl
  | cons k rest ih =>
    intro st acc
    rw [fetchKeysLoop_cons_eq]
    rcases hr : (zrequest cfg T R st.issued.length).result with e | b <;>
      simp only [hr]
    · rcases e <;> dsimp only <;>
        first
          | (rw [ih]; rfl)
          | rfl
    · rcases b <;> dsimp only <;>
        first
          | (rw [ih]; rfl)
          | rfl

/-- Claim C1 (amended, confirmed): whenever `get_all`'s fetch raises —
whether the listing request or a per-key fetch fails, and whatever the
raised error — the cached mapping for the resolved environment is
returned only when a cache entry exists AND its TTL deadline has not yet
passed; when the entry is expired, or absent, the underlying error is
re-raised.  The claim's three failure modes are each shown to raise such
an error after exhausting retries: a network error on every attempt gives
`APIError(0, msg)`, a timeout on every attempt gives `TimeoutError(msg)`,
and HTTP 503 on every attempt gives `APIError(503, msg)`. -/
theorem c1_amended_fallback_needs_unexpired_cache (cfg : Config) (R : Nat → ℚ)
    (now : ℚ) (st : ClientState) (env? : Option String) (m : String)
    (horg : cfg.org_id ≠ "") (hproj : cfg.project_id ≠ "") :
    (∀ (T : Nat → Response) (e : ZError),
      (zrequest cfg T R st.issued.length).result = .error e →
      (∀ entry, dictGet st.cache (resolve_env cfg env?) = some entry →
        now < entry.expires_at →
        (get_all cfg T R now st env?).1 = .ok entry.secrets) ∧
      (∀ entry, dictGet st.cache (resolve_env cfg env?) = some entry →
        entry.expires_at ≤ now →
        (get_all cfg T R now st env?).1 = .error e) ∧
      (dictGet st.cache (resolve_env cfg env?) = none →
        (get_all cfg T R now st env?).1 = .error e)) ∧
    (∀ (T : Nat → Response) (body : Body) (e : ZError) (st2 : ClientState),
      (zrequest cfg T R st.issued.length).result = .ok body →
      fetchKeysLoop cfg T R (resolve_env cfg env?)
        (logIssued st .get
          (.secretsList cfg.org_id cfg.project_id (resolve_env cfg env?))
          (zrequest cfg T R st.issued.length).attempts) [] (bodyKeys body) =
        (.error e, st2) →
      (∀ entry, dictGet st.cache (resolve_env cfg env?) = some entry →
        now < entry.expires_at →
        (get_all cfg T R now st env?).1 = .ok entry.secrets) ∧
      (∀ entry, dictGet st.cache (resolve_env cfg env?) = some entry →
        entry.expires_at ≤ now →
        (get_all cfg T R now st env?).1 = .error e) ∧
      (dictGet st.cache (resolve_env cfg env?) = none →
        (get_all cfg T R now st env?).1 = .error e)) ∧
    (zrequest cfg (fun _ => .netError m) R st.issued.length).result =
      .error (.apiError 0 m) ∧
    (zrequest cfg (fun _ => .timeout m) R st.issued.length).result =
      .error (.timeoutError m) ∧
    (∀ b, (zrequest cfg (fun _ => .http 503 b m) R st.issued.length).result =
      .error (.apiError 503 m)) := by
  refine ⟨?_, ?_, by rw [zrequest_const_netError], by rw [zrequest_const_timeout],
    fun b => by rw [zrequest_const_503]⟩
  · intro T e herr
    unfold get_all
    simp only [require_project_config_ok cfg horg hproj, herr, get_cached_logIssued]
    refine ⟨?_, ?_, ?_⟩
    · intro entry he hlt
      have hc : get_cached now st (resolve_env cfg env?) = some entry.secrets := by
        unfold get_cached
        rw [he]
        simp [hlt]
      rw [hc]
    · intro entry he hge
      have hc : get_cached now st (resolve_env cfg env?) = none := by
        unfold get_cached
        rw [he]
        simp [not_lt.mpr hge]
      rw [hc]
    · intro he
      have hc : get_cached now st (resolve_env cfg env?) = none := by
        unfold get_cached
        rw [he]
      rw [hc]
  · intro T body e st2 h1 h2
    have hc2 : st2.cache = st.cache := by
      have hl := fetchKeysLoop_cache cfg T R (resolve_env cfg env?) (bodyKeys body)
        (logIssued st .get
          (.secretsList cfg.org_id cfg.project_id (resolve_env cfg env?))
          (zrequest cfg T R st.issued.length).attempts) []
      rw [h2] at hl
      exact hl
    unfold get_all
    simp only [require_project_config_ok cfg horg hproj, h1, h2]
    refine ⟨?_, ?_, ?_⟩
    · intro entry he hlt
      have hc : get_cached now st2 (resolve_env cfg env?) = some entry.secrets := by
        unfold get_cached
        rw [hc2, he]
        simp [hlt]
      rw [hc]
    · intro entry he hge
      have hc : get_cached now st2 (resolve_env cfg env?) = none := by
        unfold get_cached
        rw [hc2, he]
        simp [not_lt.mpr hge]
      rw [hc]
    · intro he
      have hc : get_cached now st2 (resolve_env cfg env?) = none := by
        unfold get_cached
        rw [hc2, he]
      rw [hc]

/-- Witness for C1: client for org "o"/project "p", unexpired cache entry
for "production" (expires at 10, current time 5), network down on every
attempt (a raised `APIError(0, "down")`): `get_all` serves the cached
mapping. -/
theorem c1_amended_witness :
    ("o" : String) ≠ "" ∧ ("p" : String) ≠ "" ∧
    (zrequest ⟨"o", "p", "development", 300, 0⟩ (fun _ => .netError "down")
      (fun _ => 0) 0).result = .error (.apiError 0 "down") ∧
    (dictGet [("production", (⟨[("K", "V")], 10⟩ : CacheEntry))] "production" =
      some ⟨[("K", "V")], 10⟩) ∧ ((5 : ℚ) < 10) ∧
    (get_all ⟨"o", "p", "development", 300, 0⟩ (fun _ => .netError "down")
        (fun _ => 0) 5 ⟨[("production", ⟨[("K", "V")], 10⟩)], none, []⟩
        (some "production")).1 = .ok [("K", "V")] :=
  ⟨by decide, by decide, by decide, by decide, by decide,
   ((c1_amended_fallback_needs_unexpired_cache ⟨"o", "p", "development", 300, 0⟩
      (fun _ => 0) 5 ⟨[("production", ⟨[("K", "V")], 10⟩)], none, []⟩
      (some "production") "down" (by decide) (by decide)).1
     (fun _ => .netError "down") (.apiError 0 "down") (by decide)).1
     ⟨[("K", "V")], 10⟩ (by decide) (by decide)⟩

lemma retryBaseDelay_pos : (0 : ℚ) < retryBaseDelay := by
  norm_num [retryBaseDelay]

lemma backoffDelay_lt_succ (R : Nat → ℚ) (hR : ∀ i, 0 ≤ R i ∧ R i < 1) (i : Nat) :
    backoffDelay R i < backoffDelay R (i + 1) := by
  unfold backoffDelay
  have h2 : (0 : ℚ) < 2 ^ i := by positivity
  have hb : (0 : ℚ) < retryBaseDelay := retryBaseDelay_pos
  have hx : (0 : ℚ) < retryBaseDelay * 2 ^ i := by positivity
  obtain ⟨h0, h1⟩ := hR i
  obtain ⟨h0', h1'⟩ := hR (i + 1)
  rw [pow_succ]
  nlinarith [mul_lt_mul_of_pos_right h1 hx, mul_nonneg h0' (le_of_lt hx)]

/-- Claim C3 (confirmed): when every attempt receives HTTP 503, the
transport makes exactly `max_retries` additional attempts after the first
(`max_retries + 1` in total), sleeps before each retry a delay equal to
`base_delay · 2^attempt` plus a jitter of at most 30% of that value
(attempt indices from 0, so the slept delays strictly increase), and then
raises `APIError(503, msg)`. -/
theorem c3_503_retry_backoff (cfg : Config) (R : Nat → ℚ) (base : Nat) (b : Body)
    (m : String) (hR : ∀ i, 0 ≤ R i ∧ R i < 1) :
    (zrequest cfg (fun _ => .http 503 b m) R base).attempts = cfg.max_retries + 1 ∧
    (zrequest cfg (fun _ => .http 503 b m) R base).result =
      .error (.apiError 503 m) ∧
    (zrequest cfg (fun _ => .http 503 b m) R base).sleeps.length = cfg.max_retries ∧
    (∃ jitter : Nat → ℚ,
      (zrequest cfg (fun _ => .http 503 b m) R base).sleeps =
        (List.range cfg.max_retries).map
          (fun i => retryBaseDelay * 2 ^ i + jitter i) ∧
      ∀ i, 0 ≤ jitter i ∧ jitter i ≤ 3/10 * (retryBaseDelay * 2 ^ i)) ∧
    (zrequest cfg (fun _ => .http 503 b m) R base).sleeps.Chain' (· < ·) := by
  have hz : zrequest cfg (fun _ => .http 503 b m) R base =
      ⟨.error (.apiError 503 m), cfg.max_retries + 1,
       (List.range cfg.max_retries).map fun i => backoffDelay R i⟩ := by
    unfold zrequest
    rw [requestLoop_const_503 cfg.max_retries R base b m cfg.max_retries 0 (by omega)]
    simp only [Nat.zero_add]
  rw [hz]
  refine ⟨rfl, rfl, by simp, ?_, ?_⟩
  · refine ⟨fun i => R i * (retryBaseDelay * 2 ^ i) * (3/10), rfl, ?_⟩
    intro i
    have hx : (0 : ℚ) < retryBaseDelay * 2 ^ i := by
      have := retryBaseDelay_pos
      positivity
    obtain ⟨h0, h1⟩ := hR i
    constructor
    · positivity
    · nlinarith [mul_lt_mul_of_pos_right h1 hx]
  · rw [List.chain'_map]
    rcases hmr : cfg.max_retries with _ | n
    · simp
    · rw [List.chain'_range_succ]
      intro i _
      exact backoffDelay_lt_succ R hR i

/-- Witness for C3: `max_retries = 2`, uniform jitter draw 1/2, every
response 503: three attempts are made in total. -/
theorem c3_503_retry_backoff_witness :
    (∀ i : Nat, (0 : ℚ) ≤ (fun _ => (1 : ℚ)/2) i ∧ ((fun _ => (1 : ℚ)/2) i : ℚ) < 1) ∧
    (zrequest ⟨"o", "p", "d", 300, 2⟩ (fun _ => .http 503 .otherBody "svc down")
      (fun _ => (1 : ℚ)/2) 0).attempts = 3 :=
  ⟨fun i => ⟨by norm_num, by norm_num⟩,
   (c3_503_retry_backoff ⟨"o", "p", "d", 300, 2⟩ (fun _ => (1 : ℚ)/2) 0 .otherBody
      "svc down" (fun i => ⟨by norm_num, by norm_num⟩)).1⟩

/-- Claim C4 (amended, confirmed): after a `get_all` whose fetch succeeds,
the cache entry for the environment is replaced wholesale by the fetched
mapping with deadline `now + cache_ttl`, and the last-refresh stamp is set;
a subsequent `get` for a key of that mapping before the deadline is served
from cache with no network request, while after the deadline a `get`
issues a network request.  (The original claim's assertion that a
subsequent `get_all` before the deadline is also served without a network
request is refuted by `c4_get_all_always_fetches`.) -/
theorem c4_amended_fetch_replaces_entry (cfg : Config) (T : Nat → Response)
    (R : Nat → ℚ) (now : ℚ) (st : ClientState) (env? : Option String)
    (body : Body) (secrets : List (String × String)) (st2 : ClientState)
    (horg : cfg.org_id ≠ "") (hproj : cfg.project_id ≠ "")
    (h1 : (zrequest cfg T R st.issued.length).result = .ok body)
    (h2 : fetchKeysLoop cfg T R (resolve_env cfg env?)
        (logIssued st .get
          (.secretsList cfg.org_id cfg.project_id (resolve_env cfg env?))
          (zrequest cfg T R st.issued.length).attempts) [] (bodyKeys body) =
      (.ok secrets, st2)) :
    (get_all cfg T R now st env?).1 = .ok secrets ∧
    dictGet (get_all cfg T R now st env?).2.cache (resolve_env cfg env?) =
      some ⟨secrets, now + cfg.cache_ttl⟩ ∧
    (get_all cfg T R now st env?).2.last_refresh = some now ∧
    (∀ (T' : Nat → Response) (R' : Nat → ℚ) (now' : ℚ) (k v : String),
      now' < now + cfg.cache_ttl → dictGet secrets k = some v →
      get cfg T' R' now' (get_all cfg T R now st env?).2 k env? =
        (.ok v, (get_all cfg T R now st env?).2)) ∧
    (∀ (T' : Nat → Response) (R' : Nat → ℚ) (now' : ℚ) (k : String),
      now + cfg.cache_ttl ≤ now' →
      (get_all cfg T R now st env?).2.issued.length <
        (get cfg T' R' now' (get_all cfg T R now st env?).2 k env?).2.issued.length) := by
  have hga : get_all cfg T R now st env? =
      (.ok secrets,
       { st2 with
         cache := dictSet st2.cache (resolve_env cfg env?)
           ⟨secrets, now + cfg.cache_ttl⟩
         last_refresh := some now }) := by
    unfold get_all
    simp only [require_project_config_ok cfg horg hproj, h1, h2]
  rw [hga]
  have hentry : dictGet (dictSet st2.cache (resolve_env cfg env?)
      ⟨secrets, now + cfg.cache_ttl⟩) (resolve_env cfg env?) =
      some ⟨secrets, now + cfg.cache_ttl⟩ :=
    dictGet_dictSet_self _ _ _
  refine ⟨rfl, hentry, rfl, ?_, ?_⟩
  · intro T' R' now' k v hlt hk
    apply get_hit _ _ _ _ _ _ _ _ horg hproj
    unfold get_cached_key
    dsimp only
    rw [hentry]
    dsimp only
    rw [if_pos hlt]
    exact hk
  · intro T' R' now' k hge
    have hmiss : get_cached_key now'
        ({ st2 with
           cache := dictSet st2.cache (resolve_env cfg env?)
             ⟨secrets, now + cfg.cache_ttl⟩
           last_refresh := some now } : ClientState)
        (resolve_env cfg env?) k = none := by
      unfold get_cached_key
      dsimp only
      rw [hentry]
      dsimp only
      rw [if_neg (not_lt.mpr hge)]
    rw [get_miss_issued cfg T' R' now' _ k env? horg hproj hmiss]
    simp only [List.length_append, List.length_replicate]
    have hpos := zrequest_attempts_pos cfg T' R'
      ({ st2 with
         cache := dictSet st2.cache (resolve_env cfg env?)
           ⟨secrets, now + cfg.cache_ttl⟩
         last_refresh := some now } : ClientState).issued.length
    dsimp only at hpos ⊢
    omega

/-- Witness for C4: empty key listing fetched successfully (one request,
empty mapping), cache entry replaced by the empty mapping with deadline
`0 + 300`. -/
theorem c4_amended_fetch_replaces_entry_witness :
    (zrequest ⟨"o", "p", "development", 300, 0⟩
        (fun _ => .http 200 (.keysList []) "") (fun _ => 0)
        ([] : List (Method × ApiPath)).length).result = .ok (.keysList []) ∧
    fetchKeysLoop ⟨"o", "p", "development", 300, 0⟩
        (fun _ => .http 200 (.keysList []) "") (fun _ => 0) "development"
        (logIssued ⟨[], none, []⟩ .get (.secretsList "o" "p" "development")
          (zrequest ⟨"o", "p", "development", 300, 0⟩
            (fun _ => .http 200 (.keysList []) "") (fun _ => 0) 0).attempts)
        [] (bodyKeys (.keysList [])) =
      (.ok [], ⟨[], none, [(.get, .secretsList "o" "p" "development")]⟩) ∧
    (get_all ⟨"o", "p", "development", 300, 0⟩
        (fun _ => .http 200 (.keysList []) "") (fun _ => 0) 0
        ⟨[], none, []⟩ none).1 = .ok [] :=
  ⟨by decide, by decide,
   (c4_amended_fetch_replaces_entry ⟨"o", "p", "development", 300, 0⟩
      (fun _ => .http 200 (.keysList []) "") (fun _ => 0) 0 ⟨[], none, []⟩ none
      (.keysList []) [] ⟨[], none, [(.get, .secretsList "o" "p" "development")]⟩
      (by decide) (by decide) (by decide) (by decide)).1⟩

/-- Claim C5 (amended, confirmed): when `get` misses the cache and the
single-key GET succeeds, the fetched value is returned and merged into the
cache entry for the environment — but the entry's TTL deadline is fresh
(`now + cache_ttl`) only when the entry is created (no live entry
existed); merging into an existing unexpired entry keeps that entry's old
deadline (see `c5_merge_keeps_old_deadline`). -/
theorem c5_amended_merge_semantics (cfg : Config) (T : Nat → Response)
    (R : Nat → ℚ) (now : ℚ) (st : ClientState) (key : String)
    (env? : Option String) (s : SecretJson)
    (horg : cfg.org_id ≠ "") (hproj : cfg.project_id ≠ "")
    (hmiss : get_cached_key now st (resolve_env cfg env?) key = none)
    (hresp : (zrequest cfg T R st.issued.length).result = .ok (.secretBody s)) :
    (get cfg T R now st key env?).1 = .ok s.value ∧
    (∀ entry, dictGet st.cache (resolve_env cfg env?) = some entry →
      now < entry.expires_at →
      dictGet (get cfg T R now st key env?).2.cache (resolve_env cfg env?) =
        some ⟨dictSet entry.secrets key s.value, entry.expires_at⟩) ∧
    (∀ entry, dictGet st.cache (resolve_env cfg env?) = some entry →
      entry.expires_at ≤ now →
      dictGet (get cfg T R now st key env?).2.cache (resolve_env cfg env?) =
        some ⟨[(key, s.value)], now + cfg.cache_ttl⟩) ∧
    (dictGet st.cache (resolve_env cfg env?) = none →
      dictGet (get cfg T R now st key env?).2.cache (resolve_env cfg env?) =
        some ⟨[(key, s.value)], now + cfg.cache_ttl⟩) := by
  rw [get_miss_ok cfg T R now st key env? s horg hproj hmiss hresp]
  refine ⟨rfl, ?_, ?_, ?_⟩
  · intro entry he hlt
    unfold set_cached_key
    dsimp only [logIssued_cache]
    rw [he]
    dsimp only
    rw [if_pos hlt]
    exact dictGet_dictSet_self _ _ _
  · intro entry he hge
    unfold set_cached_key
    dsimp only [logIssued_cache]
    rw [he]
    dsimp only
    rw [if_neg (not_lt.mpr hge)]
    exact dictGet_dictSet_self _ _ _
  · intro he
    unfold set_cached_key
    dsimp only [logIssued_cache]
    rw [he]
    exact dictGet_dictSet_self _ _ _

/-- Witness for C5: cache miss for key "B" against a live entry holding
only "A" (expires at 100, now 50); the fetched value "2" is returned. -/
theorem c5_amended_merge_semantics_witness :
    get_cached_key 50 ⟨[("development", ⟨[("A", "1")], 100⟩)], none, []⟩
        "development" "B" = none ∧
    (get ⟨"o", "p", "development", 300, 3⟩
        (fun _ => .http 200 (.secretBody ⟨"B", "2", 1, none, none, none⟩) "")
        (fun _ => 0) 50 ⟨[("development", ⟨[("A", "1")], 100⟩)], none, []⟩
        "B" none).1 = .ok "2" :=
  ⟨by decide,
   (c5_amended_merge_semantics ⟨"o", "p", "development", 300, 3⟩
      (fun _ => .http 200 (.secretBody ⟨"B", "2", 1, none, none, none⟩) "")
      (fun _ => 0) 50 ⟨[("development", ⟨[("A", "1")], 100⟩)], none, []⟩
      "B" none ⟨"B", "2", 1, none, none, none⟩
      (by decide) (by decide) (by decide) (by decide)).1⟩

lemma get_cached_key_after_set (cfg : Config) (now : ℚ) (st : ClientState)
    (env key value : String) (httl : 0 < cfg.cache_ttl) :
    get_cached_key now (set_cached_key cfg now st env key value) env key =
      some value := by
  have hlt : now < now + cfg.cache_ttl := by linarith
  unfold set_cached_key get_cached_key
  rcases h : dictGet st.cache env with _ | entry
  · dsimp only
    rw [dictGet_dictSet_self]
    dsimp only
    rw [if_pos hlt]
    simp [dictGet]
  · dsimp only
    by_cases hc : now < entry.expires_at
    · rw [if_pos hc]
      dsimp only
      rw [dictGet_dictSet_self]
      dsimp only
      rw [if_pos hc]
      exact dictGet_dictSet_self _ _ _
    · rw [if_neg hc]
      dsimp only
      rw [dictGet_dictSet_self]
      dsimp only
      rw [if_pos hlt]
      simp [dictGet]

/-- Claim C6 (confirmed): `set` issues the remote PUT regardless of the
cache state (even when the key is already present in an unexpired cache
entry — no hypothesis restricts the cache), and on success the cached
value for the key equals the written value, so an immediately following
`get` returns it from cache with no network request and no state change. -/
theorem c6_set_writes_through_then_get_hits (cfg : Config) (T : Nat → Response)
    (R : Nat → ℚ) (now : ℚ) (st : ClientState) (key value : String)
    (env? : Option String) (comment : String) (s : SecretJson)
    (horg : cfg.org_id ≠ "") (hproj : cfg.project_id ≠ "")
    (httl : 0 < cfg.cache_ttl)
    (hresp : (zrequest cfg T R st.issued.length).result = .ok (.secretBody s)) :
    st.issued.length < (set cfg T R now st key value env? comment).2.issued.length ∧
    (∀ q ∈ ((set cfg T R now st key value env? comment).2.issued.drop
        st.issued.length),
      q = (Method.put, ApiPath.secretKey cfg.org_id cfg.project_id
            (resolve_env cfg env?) key)) ∧
    get_cached_key now (set cfg T R now st key value env? comment).2
      (resolve_env cfg env?) key = some value ∧
    (∀ (T' : Nat → Response) (R' : Nat → ℚ),
      get cfg T' R' now (set cfg T R now st key value env? comment).2 key env? =
        (.ok value, (set cfg T R now st key value env? comment).2)) := by
  have hset : set cfg T R now st key value env? comment =
      (.ok ⟨s.key, s.value, s.version, s.comment.getD "", s.created_at.getD "",
         s.updated_at.getD ""⟩,
       set_cached_key cfg now
         (logIssued st .put (.secretKey cfg.org_id cfg.project_id
            (resolve_env cfg env?) key) (zrequest cfg T R st.issued.length).attempts)
         (resolve_env cfg env?) key value) := by
    unfold set
    simp only [require_project_config_ok cfg horg hproj, hresp]
  rw [hset]
  have hiss : (set_cached_key cfg now
      (logIssued st .put (.secretKey cfg.org_id cfg.project_id
         (resolve_env cfg env?) key) (zrequest cfg T R st.issued.length).attempts)
      (resolve_env cfg env?) key value).issued =
      st.issued ++ List.replicate (zrequest cfg T R st.issued.length).attempts
        (Method.put, ApiPath.secretKey cfg.org_id cfg.project_id
          (resolve_env cfg env?) key) := by
    rw [set_cached_key_issued]
    rfl
  have hcache := get_cached_key_after_set cfg now
    (logIssued st .put (.secretKey cfg.org_id cfg.project_id
       (resolve_env cfg env?) key) (zrequest cfg T R st.issued.length).attempts)
    (resolve_env cfg env?) key value httl
  refine ⟨?_, ?_, hcache, ?_⟩
  · rw [hiss]
    simp only [List.length_append, List.length_replicate]
    have hpos := zrequest_attempts_pos cfg T R st.issued.length
    omega
  · intro q hq
    rw [hiss, List.drop_left] at hq
    exact List.eq_of_mem_replicate hq
  · intro T' R'
    exact get_hit cfg T' R' now _ key env? value horg hproj hcache

/-- Witness for C6: live cache entry already holds "K" (so the claim's
"even when cached" case applies), `set` writes "newv" and the cached value
afterwards is "newv". -/
theorem c6_set_writes_through_then_get_hits_witness :
    ((0 : ℚ) < 300) ∧
    (zrequest ⟨"o", "p", "development", 300, 0⟩
        (fun _ => .http 200 (.secretBody ⟨"K", "newv", 2, none, none, none⟩) "")
        (fun _ => 0) 0).result = .ok (.secretBody ⟨"K", "newv", 2, none, none, none⟩) ∧
    get_cached_key 0
      (set ⟨"o", "p", "development", 300, 0⟩
        (fun _ => .http 200 (.secretBody ⟨"K", "newv", 2, none, none, none⟩) "")
        (fun _ => 0) 0 ⟨[("development", ⟨[("K", "old")], 100⟩)], none, []⟩
        "K" "newv" none "").2 "development" "K" = some "newv" :=
  ⟨by decide, by decide,
   (c6_set_writes_through_then_get_hits ⟨"o", "p", "development", 300, 0⟩
      (fun _ => .http 200 (.secretBody ⟨"K", "newv", 2, none, none, none⟩) "")
      (fun _ => 0) 0 ⟨[("development", ⟨[("K", "old")], 100⟩)], none, []⟩
      "K" "newv" none "" ⟨"K", "newv", 2, none, none, none⟩
      (by decide) (by decide) (by decide) (by decide)).2.2.1⟩

lemma injectLoop_no_overwrite (secrets : List (String × String)) :
    ∀ (osEnv : List (String × String)) (c : Nat),
      (∀ k, (dictGet osEnv k).isSome →
        dictGet (injectLoop false osEnv c secrets).1 k = dictGet osEnv k) ∧
      osEnv.length ≤ (injectLoop false osEnv c secrets).1.length ∧
      (injectLoop false osEnv c secrets).2 =
        c + ((injectLoop false osEnv c secrets).1.length - osEnv.length) ∧
      (∀ k v, dictGet secrets k = some v → dictGet osEnv k = none →
        dictGet (injectLoop false osEnv c secrets).1 k = some v) := by
  induction secrets with
  | nil =>
    intro osEnv c
    refine ⟨fun k _ => rfl, le_refl _, by simp [injectLoop], ?_⟩
    intro k v hk
    simp [dictGet] at hk
  | cons kv rest ih =>
    intro osEnv c
    obtain ⟨k0, v0⟩ := kv
    by_cases h0 : (dictGet osEnv k0).isSome
    · have hstep : injectLoop false osEnv c ((k0, v0) :: rest) =
          injectLoop false osEnv c rest := by
        have hstep0 : injectLoop false osEnv c ((k0, v0) :: rest) =
            if ¬(false = true) ∧ ((dictGet osEnv k0).isSome = true) then
              injectLoop false osEnv c rest
            else injectLoop false (dictSet osEnv k0 v0) (c + 1) rest := rfl
        rw [hstep0, if_pos ⟨by simp, h0⟩]
      rw [hstep]
      obtain ⟨ih1, ih2, ih3, ih4⟩ := ih osEnv c
      refine ⟨ih1, ih2, ih3, ?_⟩
      intro k v hk hn
      by_cases hkk : k0 = k
      · subst hkk
        rw [hn] at h0
        simp at h0
      · have hk' : dictGet rest k = some v := by
          simpa [dictGet, hkk] using hk
        exact ih4 k v hk' hn
    · have hnone : dictGet osEnv k0 = none := by
        rcases hh : dictGet osEnv k0 with _ | w
        · rfl
        · rw [hh] at h0
          simp at h0
      have hstep : injectLoop false osEnv c ((k0, v0) :: rest) =
          injectLoop false (dictSet osEnv k0 v0) (c + 1) rest := by
        have hstep0 : injectLoop false osEnv c ((k0, v0) :: rest) =
            if ¬(false = true) ∧ ((dictGet osEnv k0).isSome = true) then
              injectLoop false osEnv c rest
            else injectLoop false (dictSet osEnv k0 v0) (c + 1) rest := rfl
        rw [hstep0, if_neg (fun hc => h0 hc.2)]
      rw [hstep]
      obtain ⟨ih1, ih2, ih3, ih4⟩ := ih (dictSet osEnv k0 v0) (c + 1)
      have hlen : (dictSet osEnv k0 v0).length = osEnv.length + 1 :=
        length_dictSet_none osEnv k0 v0 hnone
      refine ⟨?_, ?_, ?_, ?_⟩
      · intro k hk
        have hne : k0 ≠ k := by
          intro he
          subst he
          rw [hnone] at hk
          simp at hk
        rw [ih1 k (by rw [dictGet_dictSet_ne osEnv k0 k v0 hne]; exact hk),
          dictGet_dictSet_ne osEnv k0 k v0 hne]
      · omega
      · rw [ih3, hlen]
        have := ih2
        rw [hlen] at this
        omega
      · intro k v hk hn
        by_cases hkk : k0 = k
        · subst hkk
          have hv : v0 = v := by
            simpa [dictGet] using hk
          subst hv
          rw [ih1 k0 (by rw [dictGet_dictSet_self]; rfl)]
          exact dictGet_dictSet_self _ _ _
        · have hk' : dictGet rest k = some v := by
            simpa [dictGet, hkk] using hk
          have hn' : dictGet (dictSet osEnv k0 v0) k = none := by
            rw [dictGet_dictSet_ne osEnv k0 k v0 hkk]
            exact hn
          exact ih4 k v hk' hn'

lemma injectLoop_overwrite_step (osEnv : List (String × String)) (c : Nat)
    (k0 v0 : String) (rest : List (String × String)) :
    injectLoop true osEnv c ((k0, v0) :: rest) =
      injectLoop true (dictSet osEnv k0 v0) (c + 1) rest := by
  have hstep0 : injectLoop true osEnv c ((k0, v0) :: rest) =
      if ¬(true = true) ∧ ((dictGet osEnv k0).isSome = true) then
        injectLoop true osEnv c rest
      else injectLoop true (dictSet osEnv k0 v0) (c + 1) rest := rfl
  rw [hstep0, if_neg (fun hc => hc.1 rfl)]

lemma injectLoop_overwrite_untouched (secrets : List (String × String)) :
    ∀ (osEnv : List (String × String)) (c : Nat) (k : String),
      k ∉ secrets.map Prod.fst →
      dictGet (injectLoop true osEnv c secrets).1 k = dictGet osEnv k := by
  induction secrets with
  | nil => intro osEnv c k _; rfl
  | cons kv rest ih =>
    intro osEnv c k hk
    obtain ⟨k0, v0⟩ := kv
    simp only [List.map_cons, List.mem_cons, not_or] at hk
    rw [injectLoop_overwrite_step, ih _ _ _ hk.2,
      dictGet_dictSet_ne osEnv k0 k v0 (Ne.symm hk.1)]

lemma injectLoop_overwrite_count (secrets : List (String × String)) :
    ∀ (osEnv : List (String × String)) (c : Nat),
      (injectLoop true osEnv c secrets).2 = c + secrets.length := by
  induction secrets with
  | nil => intro osEnv c; simp [injectLoop]
  | cons kv rest ih =>
    intro osEnv c
    obtain ⟨k0, v0⟩ := kv
    rw [injectLoop_overwrite_step, ih]
    simp only [List.length_cons]
    omega

lemma injectLoop_overwrite_sets (secrets : List (String × String)) :
    ∀ (osEnv : List (String × String)) (c : Nat),
      (secrets.map Prod.fst).Nodup →
      ∀ kv ∈ secrets, dictGet (injectLoop true osEnv c secrets).1 kv.1 = some kv.2 := by
  induction secrets with
  | nil => intro osEnv c _ kv hkv; simp at hkv
  | cons kv0 rest ih =>
    intro osEnv c hnd kv hkv
    obtain ⟨k0, v0⟩ := kv0
    simp only [List.map_cons, List.nodup_cons] at hnd
    rw [injectLoop_overwrite_step]
    rcases List.mem_cons.mp hkv with he | hm
    · rw [he]
      dsimp only
      rw [injectLoop_overwrite_untouched rest _ _ k0 hnd.1]
      exact dictGet_dictSet_self _ _ _
    · exact ih _ _ hnd.2 kv hm

/-- Claim C7 (confirmed): given a successful `get_all` fetch (with
distinct keys), `inject_into_env` with `overwrite = false` never changes a
process-environment variable whose key already exists (it only appends new
ones, and each fetched key absent from the environment is written); with
`overwrite = true` every fetched key is set to the remote value.  In both
cases the returned count equals the number of variables actually written:
the number of appended variables for `overwrite = false`, all of them for
`overwrite = true`. -/
theorem c7_inject_into_env_policy (cfg : Config) (T : Nat → Response)
    (R : Nat → ℚ) (now : ℚ) (st : ClientState)
    (osEnv : List (String × String)) (env? : Option String) (ow : Bool)
    (secrets : List (String × String)) (st1 : ClientState)
    (hget : get_all cfg T R now st env? = (.ok secrets, st1))
    (hnodup : (secrets.map Prod.fst).Nodup) :
    (inject_into_env cfg T R now st osEnv env? ow).2.1 = st1 ∧
    (ow = false →
      (∀ k, (dictGet osEnv k).isSome →
        dictGet (inject_into_env cfg T R now st osEnv env? ow).2.2 k =
          dictGet osEnv k) ∧
      (∀ k v, dictGet secrets k = some v → dictGet osEnv k = none →
        dictGet (inject_into_env cfg T R now st osEnv env? ow).2.2 k = some v) ∧
      (inject_into_env cfg T R now st osEnv env? ow).1 =
        .ok ((inject_into_env cfg T R now st osEnv env? ow).2.2.length -
          osEnv.length)) ∧
    (ow = true →
      (∀ kv ∈ secrets,
        dictGet (inject_into_env cfg T R now st osEnv env? ow).2.2 kv.1 =
          some kv.2) ∧
      (inject_into_env cfg T R now st osEnv env? ow).1 = .ok secrets.length) := by
  have hinj : inject_into_env cfg T R now st osEnv env? ow =
      (.ok (injectLoop ow osEnv 0 secrets).2, st1,
       (injectLoop ow osEnv 0 secrets).1) := by
    unfold inject_into_env
    simp only [hget]
  rw [hinj]
  refine ⟨rfl, ?_, ?_⟩
  · intro how
    subst how
    obtain ⟨h1, h2, h3, h4⟩ := injectLoop_no_overwrite secrets osEnv 0
    refine ⟨h1, fun k v hk hn => h4 k v hk hn, ?_⟩
    dsimp only
    rw [h3, Nat.zero_add]
  · intro how
    subst how
    refine ⟨injectLoop_overwrite_sets secrets osEnv 0 hnodup, ?_⟩
    dsimp only
    rw [injectLoop_overwrite_count secrets osEnv 0, Nat.zero_add]

/-- Witness for C7: one secret ("A" → "1") fetched successfully into an
empty process environment with `overwrite = true`; the count is 1. -/
theorem c7_inject_into_env_policy_witness :
    get_all ⟨"o", "p", "development", 300, 0⟩
        (fun n => if n = 0 then .http 200 (.keysList [⟨"A", 1, none, none⟩]) ""
                  else .http 200 (.secretBody ⟨"A", "1", 1, none, none, none⟩) "")
        (fun _ => 0) 0 ⟨[], none, []⟩ none =
      (.ok [("A", "1")],
       ⟨[("development", ⟨[("A", "1")], 0 + 300⟩)], some 0,
        [(.get, .secretsList "o" "p" "development"),
         (.get, .secretKey "o" "p" "development" "A")]⟩) ∧
    (inject_into_env ⟨"o", "p", "development", 300, 0⟩
        (fun n => if n = 0 then .http 200 (.keysList [⟨"A", 1, none, none⟩]) ""
                  else .http 200 (.secretBody ⟨"A", "1", 1, none, none, none⟩) "")
        (fun _ => 0) 0 ⟨[], none, []⟩ [] none true).1 = .ok 1 :=
  ⟨rfl,
   ((c7_inject_into_env_policy ⟨"o", "p", "development", 300, 0⟩
      (fun n => if n = 0 then .http 200 (.keysList [⟨"A", 1, none, none⟩]) ""
                else .http 200 (.secretBody ⟨"A", "1", 1, none, none, none⟩) "")
      (fun _ => 0) 0 ⟨[], none, []⟩ [] none true [("A", "1")]
      ⟨[("development", ⟨[("A", "1")], 0 + 300⟩)], some 0,
       [(.get, .secretsList "o" "p" "development"),
        (.get, .secretKey "o" "p" "development" "A")]⟩
      rfl (by decide)).2.2 rfl).2⟩

lemma healthy_ok_iff (cfg : Config) (T : Nat → Response) (R : Nat → ℚ)
    (now : ℚ) (st : ClientState) :
    ((healthy cfg T R now st).1.ok = true ↔
      ∃ b, (zrequest cfg T R st.issued.length).result = .ok b) := by
  unfold healthy
  dsimp only
  rcases h : (zrequest cfg T R st.issued.length).result with e | b <;> simp [h]

lemma isSuccess_iff (c : Nat) : isSuccess c = true ↔ 200 ≤ c ∧ c ≤ 299 := by
  simp [isSuccess, Bool.and_eq_true, decide_eq_true_iff]

/-- Claim C8 (amended, confirmed): `healthy` is a total function of the
transport outcome — every raised error is caught — and its `ok` field is
`true` exactly when the probe succeeds with a 2xx status (not only 200; a
204 also gives `ok = true`, see `c8_204_probe_is_ok`): for a constant
HTTP response `ok ↔ 200 ≤ code ≤ 299`, and for timeouts or connection
errors `ok = false`.  The reported count of unexpired cached secrets and
the last-refresh stamp do not depend on the transport at all. -/
theorem c8_amended_ok_iff_2xx (cfg : Config) (R : Nat → ℚ) (now : ℚ)
    (st : ClientState) :
    (∀ (c : Nat) (b : Body) (m : String),
      ((healthy cfg (fun _ => .http c b m) R now st).1.ok = true ↔
        (200 ≤ c ∧ c ≤ 299))) ∧
    (∀ m, (healthy cfg (fun _ => .timeout m) R now st).1.ok = false) ∧
    (∀ m, (healthy cfg (fun _ => .netError m) R now st).1.ok = false) ∧
    (∀ T : Nat → Response,
      (healthy cfg T R now st).1.cached_secrets = cachedSecretsCount now st.cache ∧
      (healthy cfg T R now st).1.last_refresh = st.last_refresh) := by
  refine ⟨?_, ?_, ?_, fun T => ⟨rfl, rfl⟩⟩
  · intro c b m
    rw [healthy_ok_iff]
    constructor
    · rintro ⟨bb, hbb⟩
      by_contra hcon
      have hs : isSuccess c = false := by
        rcases hx : isSuccess c
        · rfl
        · exact absurd ((isSuccess_iff c).mp hx) hcon
      obtain ⟨e, he⟩ := requestLoop_error_of_const_http cfg.max_retries R
        st.issued.length c b m hs (cfg.max_retries + 1) 0
      unfold zrequest at hbb
      rw [he] at hbb
      exact Except.noConfusion hbb
    · intro hc
      refine ⟨if c = 204 then .emptyBody else b, ?_⟩
      unfold zrequest
      exact requestLoop_ok_of_const_http cfg.max_retries R st.issued.length c b m
        ((isSuccess_iff c).mpr hc) cfg.max_retries 0
  · intro m
    obtain ⟨e, he⟩ := requestLoop_error_of_const_timeout cfg.max_retries R
      st.issued.length m (cfg.max_retries + 1) 0
    cases hb : (healthy cfg (fun _ => .timeout m) R now st).1.ok
    · rfl
    · exfalso
      obtain ⟨b, hbb⟩ := (healthy_ok_iff cfg (fun _ => .timeout m) R now st).mp hb
      unfold zrequest at hbb
      rw [he] at hbb
      exact Except.noConfusion hbb
  · intro m
    obtain ⟨e, he⟩ := requestLoop_error_of_const_netError cfg.max_retries R
      st.issued.length m (cfg.max_retries + 1) 0
    cases hb : (healthy cfg (fun _ => .netError m) R now st).1.ok
    · rfl
    · exfalso
      obtain ⟨b, hbb⟩ := (healthy_ok_iff cfg (fun _ => .netError m) R now st).mp hb
      unfold zrequest at hbb
      rw [he] at hbb
      exact Except.noConfusion hbb

end ZVaultSDK
